import Mathlib

/-!
Verification of the levelling subsystem of `cogs/Levelling.py`
(per-guild XP progression engine of the TeamSigrid Discord bot).

The Python source is shallowly embedded below:
* the pure curve maths (`xp_required_for_level`, `level_from_total_xp`,
  `xp_between_levels`) become Lean functions over `ℤ`;
* Python float values (`math.pow(1.15, level)`, the REAL-typed
  multiplier settings) are modelled by exact rational arithmetic,
  represented as integer numerator/denominator pairs, and Python's
  built-in `round` (round half to even on floats, the identity on
  ints) by `pyRound num den`;
* the sqlite `user_xp` row becomes `UserRow`, the `guild_settings` row
  becomes `GuildSettings`, and the event handler
  `LevelSystem.on_message` becomes an explicit state-passing function
  on `Option UserRow`;
* the external Discord collaborators (role lookup, role membership,
  `add_roles` success/failure) are abstracted as boolean oracles in a
  `GrantEnv`; sqlite queries with `ORDER BY` are modelled with
  `List.insertionSort`.
-/

namespace Levelling

/-- Python's built-in `round` applied to the rational value
`num / den` (for `den > 0`): round half to even (banker's rounding),
as performed by `int(round(...))` in the source on float values.
On integer values (`den = 1`) it is the identity, matching Python's
`round` on `int`. -/
def pyRound (num den : ℤ) : ℤ :=
  if 2 * (num - num.fdiv den * den) < den then num.fdiv den
  else if den < 2 * (num - num.fdiv den * den) then num.fdiv den + 1
  else if num.fdiv den % 2 = 0 then num.fdiv den else num.fdiv den + 1

/-- Lowercasing of an ASCII string, as Python's `str.lower()` acts on
the curve-type names used by the source. -/
def pyLower (s : String) : String :=
  String.mk (s.data.map fun c =>
    if 'A' ≤ c ∧ c ≤ 'Z' then Char.ofNat (c.toNat + 32) else c)

/-- The curve-name normalisation `(curve or "quadratic").lower()` from
`xp_required_for_level`: an empty (falsy) string becomes
`"quadratic"`, then the name is lowercased. -/
def curve_norm (curve : String) : String :=
  pyLower (if curve = "" then "quadratic" else curve)

/-- Embedding of `xp_required_for_level` from `cogs/Levelling.py` (lines 122-144):
cumulative XP required to reach `level`.  The level is clamped to
`≥ 0` and level 0 requires 0 XP.  Curves (any name other than
`"linear"` / `"exponential"` falls through to the quadratic branch,
as in the source):
* linear: `(base_xp + a) * level`
* exponential: `base_xp * (1.15 ^ level - 1)`, the float power
  modelled exactly as `base_xp * (23^level - 20^level) / 20^level`
* quadratic: `base_xp * level² + a * level + b`
The final `int(round(max(0, xp)))` is `pyRound` of the clamped value
(`max(0, ·)` of a fraction with positive denominator clamps the
numerator). -/
def xp_required_for_level (curve : String) (base_xp a b level : ℤ) : ℤ :=
  let lvl : ℤ := max 0 level
  if lvl = 0 then 0
  else
    let c := curve_norm curve
    if c = "linear" then pyRound (max 0 ((base_xp + a) * lvl)) 1
    else if c = "exponential" then
      pyRound (max 0 (base_xp * (23 ^ lvl.toNat - 20 ^ lvl.toNat)))
        (20 ^ lvl.toNat)
    else pyRound (max 0 (base_xp * lvl ^ 2 + a * lvl + b)) 1

/-- The doubling ramp of `level_from_total_xp` (lines 153-158):
starting from `hi`, keep doubling while
`xp_required_for_level hi ≤ total`, breaking once the doubled bound
exceeds 10000.  The Python `while` loop is embedded with a fuel
argument; from the source's start value `hi = 1` the loop runs at most
14 iterations (the bound doubles each time and the loop breaks above
10000), so any fuel `≥ 14` computes the exact loop result. -/
def level_from_total_xp_ramp (curve : String) (base_xp a b total : ℤ) :
    Nat → Nat → Nat
  | 0, hi => hi
  | fuel + 1, hi =>
    if xp_required_for_level curve base_xp a b (hi : ℤ) ≤ total then
      if 2 * hi > 10000 then 2 * hi
      else level_from_total_xp_ramp curve base_xp a b total fuel (2 * hi)
    else hi

/-- The binary search of `level_from_total_xp` (lines 159-167): find
the greatest `level ∈ [lo, hi]` with
`xp_required_for_level level ≤ total`, taking `mid = (lo + hi + 1) / 2`
each step.  The `while lo < hi` loop is embedded with a fuel argument;
each iteration shrinks the interval `[lo, hi]` by at least one, so any
fuel `≥ hi - lo` computes the exact loop result. -/
def level_from_total_xp_search (curve : String) (base_xp a b total : ℤ) :
    Nat → Nat → Nat → Nat
  | 0, lo, _ => lo
  | fuel + 1, lo, hi =>
    if lo < hi then
      let mid := (lo + hi + 1) / 2
      if xp_required_for_level curve base_xp a b (mid : ℤ) ≤ total then
        level_from_total_xp_search curve base_xp a b total fuel mid hi
      else
        level_from_total_xp_search curve base_xp a b total fuel lo (mid - 1)
    else lo

/-- Embedding of `level_from_total_xp` from `cogs/Levelling.py` (lines 147-167):
the highest level whose requirement does not exceed `total_xp`, via
the doubling ramp followed by binary search.  `total_xp` is clamped to
`≥ 0` first, as in the source. -/
def level_from_total_xp (curve : String) (base_xp a b total_xp : ℤ) : Nat :=
  let total := max 0 total_xp
  let hi := level_from_total_xp_ramp curve base_xp a b total 10001 1
  level_from_total_xp_search curve base_xp a b total (hi + 1) 0 hi

/-- Embedding of `xp_between_levels` from `cogs/Levelling.py` (lines 170-175):
XP needed to advance from `level` to `level + 1`, floored at 1. -/
def xp_between_levels (curve : String) (base_xp a b level : ℤ) : ℤ :=
  max 1 (xp_required_for_level curve base_xp a b (level + 1) -
    xp_required_for_level curve base_xp a b level)

/-! ### The progression pipeline -/

/-- One row of the `user_xp` table (for one guild × user): `xp`,
`level`, `last_message_ts`.  The source inserts new rows with all
three fields 0. -/
structure UserRow where
  xp : ℤ
  level : ℤ
  last_message_ts : ℤ
deriving DecidableEq

/-- One row of the `guild_settings` table.  The two REAL-typed
multiplier columns are modelled as exact fractions
(`mult_num / mult_den` and `thread_mult_num / thread_mult_den`,
with positive denominators), mirroring how the source's float
multipliers scale the gain before `int(round(...))`. -/
structure GuildSettings where
  xp_min : ℤ
  xp_max : ℤ
  cooldown_seconds : ℤ
  mult_num : ℤ
  mult_den : ℤ
  min_chars : ℤ
  attachments_bonus : ℤ
  mentions_bonus : ℤ
  thread_mult_num : ℤ
  thread_mult_den : ℤ
  ignore_bots : ℤ
  curve_type : String
  base_xp : ℤ
  curve_a : ℤ
  curve_b : ℤ
  announce_level_up : ℤ
  announce_channel_id : Option ℤ
deriving DecidableEq

/-- Embedding of `DEFAULT_SETTINGS` from `cogs/Levelling.py` (lines 182-198). -/
def DEFAULT_SETTINGS : GuildSettings where
  xp_min := 10
  xp_max := 20
  cooldown_seconds := 60
  mult_num := 1
  mult_den := 1
  min_chars := 5
  attachments_bonus := 5
  mentions_bonus := 2
  thread_mult_num := 1
  thread_mult_den := 1
  ignore_bots := 1
  curve_type := "quadratic"
  base_xp := 100
  curve_a := 50
  curve_b := 0
  announce_level_up := 1
  announce_channel_id := none

/-- The inputs of one `on_message` activity event that the pipeline
inspects, with the Discord message object abstracted away:
bot flag, whether the channel is in the ignored set, whether the
author holds a blacklisted role, `len(message.content.strip())`,
attachment and mention counts, and whether the channel is a thread. -/
structure MessageEvent where
  author_is_bot : Bool
  channel_ignored : Bool
  has_blacklisted_role : Bool
  content_len : ℤ
  attachments : ℤ
  mentions : ℤ
  is_thread : Bool
deriving DecidableEq

/-- The external Discord collaborators consulted by the reward scan of
`add_xp_and_check_level_up`, abstracted as oracles on the role id:
`role_exists` models `guild.get_role(role_id) is not None`,
`member_has` models `role in member.roles`, and `add_ok` models
whether `member.add_roles` succeeds (`false` covers both
`discord.Forbidden` and `discord.HTTPException`). -/
structure GrantEnv where
  role_exists : ℤ → Bool
  member_has : ℤ → Bool
  add_ok : ℤ → Bool

/-- Ordering on `(level, role_id)` reward rows used to model the SQL
`ORDER BY level ASC`. -/
def reward_le (p q : ℤ × ℤ) : Prop := p.1 ≤ q.1

instance : DecidableRel reward_le :=
  fun p q => inferInstanceAs (Decidable (p.1 ≤ q.1))

instance : IsTotal (ℤ × ℤ) reward_le := ⟨fun a b => le_total a.1 b.1⟩

instance : IsTrans (ℤ × ℤ) reward_le := ⟨fun _ _ _ h1 h2 => le_trans h1 h2⟩

/-- The reward query of `add_xp_and_check_level_up` (lines 323-327):
`SELECT level, role_id FROM role_rewards WHERE guild_id = ? AND level
BETWEEN ? AND ? ORDER BY level ASC`, over the guild's reward table
modelled as a list of `(level, role_id)` pairs. -/
def rewards_between (rewards : List (ℤ × ℤ)) (lo hi : ℤ) : List (ℤ × ℤ) :=
  List.insertionSort reward_le
    (rewards.filter fun p => lo ≤ p.1 && p.1 ≤ hi)

/-- The grant loop of `add_xp_and_check_level_up` (lines 328-346): for
each reward row in order, skip if the role no longer exists, attempt
the grant if the member does not already hold it, record it in
`awarded` on success, and continue with the remaining rows when the
grant raises `Forbidden` / `HTTPException`. -/
def award_scan (env : GrantEnv) : List (ℤ × ℤ) → List (ℤ × ℤ)
  | [] => []
  | (lvl, rid) :: rest =>
    if env.role_exists rid then
      if !env.member_has rid then
        if env.add_ok rid then (lvl, rid) :: award_scan env rest
        else award_scan env rest
      else award_scan env rest
    else award_scan env rest

/-- The result of `add_xp_and_check_level_up`: the returned triple
`(new_total, new_level, awarded)` plus the `user_xp` row as left in
the store (the source's `UPDATE user_xp SET xp = ?, level = ?`). -/
structure AddXpResult where
  new_total : ℤ
  new_level : ℕ
  awarded : List (ℤ × ℤ)
  row : UserRow
deriving DecidableEq

/-- Embedding of `add_xp_and_check_level_up` from `cogs/Levelling.py`
(lines 280-348): read (or lazily create, with all fields 0) the user's
row, apply `new_total = max(0, xp + gained_xp)`, recompute the level,
persist `(new_total, new_level)` (the `UPDATE` leaves
`last_message_ts` untouched; a freshly inserted row has
`last_message_ts = 0`), and, only when the level strictly rose, run
the reward scan over levels `current_level + 1 .. new_level`. -/
def add_xp_and_check_level_up (s : GuildSettings) (row : Option UserRow)
    (rewards : List (ℤ × ℤ)) (env : GrantEnv) (gained_xp : ℤ) :
    AddXpResult :=
  let current_xp : ℤ := match row with | some r => r.xp | none => 0
  let current_level : ℤ := match row with | some r => r.level | none => 0
  let current_ts : ℤ := match row with | some r => r.last_message_ts | none => 0
  let new_total := max 0 (current_xp + gained_xp)
  let new_level :=
    level_from_total_xp s.curve_type s.base_xp s.curve_a s.curve_b new_total
  let awarded :=
    if current_level < (new_level : ℤ) then
      award_scan env
        (rewards_between rewards (current_level + 1) (new_level : ℤ))
    else []
  ⟨new_total, new_level, awarded, ⟨new_total, (new_level : ℤ), current_ts⟩⟩

/-- Embedding of `set_last_message_ts` from `cogs/Levelling.py` (lines 351-357):
a bare SQL `UPDATE user_xp SET last_message_ts = ?`, which updates
nothing when the user has no row yet. -/
def set_last_message_ts (row : Option UserRow) (ts : ℤ) : Option UserRow :=
  match row with
  | some r => some { r with last_message_ts := ts }
  | none => none

/-- The cooldown test of `on_message` (lines 718-723):
`now_ts - last_ts < cooldown_seconds`, where `get_last_message_ts`
returns 0 when the user has no row. -/
def cooldown_rejected (s : GuildSettings) (row : Option UserRow)
    (now_ts : ℤ) : Bool :=
  let last_ts : ℤ := match row with | some r => r.last_message_ts | none => 0
  now_ts - last_ts < s.cooldown_seconds

/-- The gain computation of `on_message` (lines 725-743), with the
`random.randint(xp_min, xp_max)` draw passed in as `base_gain`:
add the attachment and mention bonuses, apply the thread multiplier
(with `int(round(...))`) when the channel is a thread, apply the
global multiplier (with `int(round(...))`), and floor at 0. -/
def computed_gain (s : GuildSettings) (msg : MessageEvent)
    (base_gain : ℤ) : ℤ :=
  let gain := base_gain + s.attachments_bonus * msg.attachments +
    s.mentions_bonus * msg.mentions
  let gain := if msg.is_thread then
      pyRound (gain * s.thread_mult_num) s.thread_mult_den
    else gain
  let gain := pyRound (gain * s.mult_num) s.mult_den
  max 0 gain

/-- The observable outcome of one `on_message` event: the user's row
afterwards, whether a level-up announcement was sent to the sink, and
the rewards granted. -/
structure OnMessageResult where
  row : Option UserRow
  announced : Bool
  awarded : List (ℤ × ℤ)
deriving DecidableEq

/-- Embedding of `LevelSystem.on_message` from `cogs/Levelling.py` (lines 687-818):
the eligibility filter chain (bots, ignored channel, blacklisted
roles, minimum characters), the cooldown check, the gain computation,
the unconditional timestamp commit once the cooldown has passed, the
early stop on non-positive gain, the XP apply, and the announcement
condition `if (awarded or new_level > 0) and announce_level_up == 1`.
Every rejecting branch returns the store unchanged. -/
def on_message (s : GuildSettings) (msg : MessageEvent)
    (base_gain now_ts : ℤ) (row : Option UserRow)
    (rewards : List (ℤ × ℤ)) (env : GrantEnv) : OnMessageResult :=
  if msg.author_is_bot && s.ignore_bots == 1 then ⟨row, false, []⟩
  else if msg.channel_ignored then ⟨row, false, []⟩
  else if msg.has_blacklisted_role then ⟨row, false, []⟩
  else if msg.content_len < s.min_chars then ⟨row, false, []⟩
  else if cooldown_rejected s row now_ts then ⟨row, false, []⟩
  else
    let gain := computed_gain s msg base_gain
    let row1 := set_last_message_ts row now_ts
    if gain ≤ 0 then ⟨row1, false, []⟩
    else
      let result := add_xp_and_check_level_up s row1 rewards env gain
      let announced := (!result.awarded.isEmpty || result.new_level > 0) &&
        s.announce_level_up == 1
      ⟨some result.row, announced, result.awarded⟩

/-! ### The leaderboard queries -/

/-- Embedding of `SELECT xp FROM user_xp WHERE guild_id = ? AND user_id = ?` over a
guild's `user_xp` table modelled as `(user_id, xp)` pairs. -/
def user_xp_lookup (table : List (ℤ × ℤ)) (uid : ℤ) : Option ℤ :=
  (table.find? fun p => p.1 == uid).map Prod.snd

/-- Embedding of `user_rank` from `cogs/Levelling.py` (lines 477-486): one plus the
number of rows with strictly greater XP than the subject's row.  A
missing subject row compares as SQL NULL, which matches no rows. -/
def user_rank (table : List (ℤ × ℤ)) (uid : ℤ) : ℤ :=
  (table.filter fun p =>
    match user_xp_lookup table uid with
    | some x => decide (x < p.2)
    | none => false).length + 1

/-- The `ORDER BY xp DESC, user_id ASC` ordering of `top_users` on
`(user_id, xp)` rows. -/
def leaderboard_le (p q : ℤ × ℤ) : Prop :=
  q.2 < p.2 ∨ (p.2 = q.2 ∧ p.1 ≤ q.1)

instance : DecidableRel leaderboard_le :=
  fun p q => inferInstanceAs (Decidable (q.2 < p.2 ∨ (p.2 = q.2 ∧ p.1 ≤ q.1)))

instance : IsTotal (ℤ × ℤ) leaderboard_le := by
  constructor
  intro a b
  unfold leaderboard_le
  omega

instance : IsTrans (ℤ × ℤ) leaderboard_le := by
  constructor
  intro a b c h1 h2
  unfold leaderboard_le at h1 h2 ⊢
  omega

/-- Embedding of `top_users` from `cogs/Levelling.py` (lines 468-474):
`SELECT user_id, xp ... ORDER BY xp DESC, user_id ASC LIMIT ? OFFSET ?`
over the guild's `(user_id, xp)` rows. -/
def top_users (table : List (ℤ × ℤ)) (limit offset : ℕ) : List (ℤ × ℤ) :=
  ((List.insertionSort leaderboard_le table).drop offset).take limit

/-! ### Bulk recalculation -/

/-- One member row of pass 1 of `LevelSystem.cfg_recalc`
(lines 1652-1664): re-run `add_xp_and_check_level_up` with a gain of 0
to recompute the level from the stored XP under the current curve and
apply role rewards.  Returns the updated row and the grants made. -/
def recalc_member_row (s : GuildSettings) (rewards : List (ℤ × ℤ))
    (env : ℤ → GrantEnv) (p : ℤ × UserRow) : UserRow × List (ℤ × ℤ) :=
  let out := add_xp_and_check_level_up s (some p.2) rewards (env p.1) 0
  (out.row, out.awarded)

/-- Embedding of `LevelSystem.cfg_recalc` from `cogs/Levelling.py`
(lines 1628-1689), acting on one guild's `user_xp` table modelled as
`(user_id, row)` pairs: rows whose user resolves to a current guild
member (`is_member`) go through the full XP pipeline with a gain of 0
(pass 1, granting role rewards); all other rows get only their level
field rewritten to `level_from_total_xp` of their stored XP (pass 2,
no reward side effects).  Returns the resulting table and the grant
events as `(user_id, (level, role_id))`. -/
def cfg_recalc (s : GuildSettings) (rewards : List (ℤ × ℤ))
    (env : ℤ → GrantEnv) (is_member : ℤ → Bool)
    (table : List (ℤ × UserRow)) :
    List (ℤ × UserRow) × List (ℤ × ℤ × ℤ) :=
  (table.map fun p =>
    if is_member p.1 then (p.1, (recalc_member_row s rewards env p).1)
    else (p.1, { p.2 with level :=
      (level_from_total_xp s.curve_type s.base_xp s.curve_a s.curve_b
        p.2.xp : ℤ) }),
   (table.filter fun p => is_member p.1).flatMap fun p =>
     ((recalc_member_row s rewards env p).2.map fun g => (p.1, g)))

/-- A message event passing every eligibility filter: a 20-character
plain human message in a normal channel. -/
def plain_message : MessageEvent :=
  ⟨false, false, false, 20, 0, 0, false⟩

/-- A collaborator environment in which no roles exist (no reward can
be granted). -/
def no_env : GrantEnv := ⟨fun _ => false, fun _ => false, fun _ => false⟩

/-- A collaborator environment in which every role exists and no role
is held, but granting role id 55 fails (`discord.Forbidden`). -/
def deny55_env : GrantEnv :=
  ⟨fun _ => true, fun _ => false, fun rid => !(rid == 55)⟩

/-! ### Arithmetic facts about `pyRound` -/

theorem fdiv_rem_eq {n d : ℤ} : n - n.fdiv d * d = n.fmod d := by
  have h1 := Int.fdiv_add_fmod n d
  have h2 : d * n.fdiv d = n.fdiv d * d := mul_comm _ _
  linarith

theorem pyRound_one (n : ℤ) : pyRound n 1 = n := by
  simp [pyRound, Int.fdiv_one]

theorem pyRound_nonneg {n d : ℤ} (hd : 0 < d) (hn : 0 ≤ n) :
    0 ≤ pyRound n d := by
  have hf : 0 ≤ n.fdiv d := Int.fdiv_nonneg hn hd.le
  unfold pyRound
  split_ifs <;> omega

/-- The value `pyRound num den` differs from the rational value `num / den` by at
most one half: `num/den - 1/2 ≤ pyRound num den ≤ num/den + 1/2`,
stated multiplied out over `ℤ`. -/
theorem pyRound_bounds {n d : ℤ} (hd : 0 < d) :
    2 * n - d ≤ 2 * pyRound n d * d ∧ 2 * pyRound n d * d ≤ 2 * n + d := by
  have hr : n - n.fdiv d * d = n.fmod d := fdiv_rem_eq
  have h0 : 0 ≤ n.fmod d := Int.fmod_nonneg' n hd
  have h1 : n.fmod d < d := Int.fmod_lt_of_pos n hd
  unfold pyRound
  split_ifs with c1 c2 c3 <;> constructor <;> nlinarith

/-- Round half to even is monotone with respect to the rational values
`n₁/d₁ ≤ n₂/d₂` (multiplied out: `n₁ * d₂ ≤ n₂ * d₁`). -/
theorem pyRound_mono {n1 d1 n2 d2 : ℤ} (hd1 : 0 < d1) (hd2 : 0 < d2)
    (h : n1 * d2 ≤ n2 * d1) : pyRound n1 d1 ≤ pyRound n2 d2 := by
  have hr1 : n1 - n1.fdiv d1 * d1 = n1.fmod d1 := fdiv_rem_eq
  have hr2 : n2 - n2.fdiv d2 * d2 = n2.fmod d2 := fdiv_rem_eq
  have h10 : 0 ≤ n1.fmod d1 := Int.fmod_nonneg' n1 hd1
  have h11 : n1.fmod d1 < d1 := Int.fmod_lt_of_pos n1 hd1
  have h20 : 0 ≤ n2.fmod d2 := Int.fmod_nonneg' n2 hd2
  have h21 : n2.fmod d2 < d2 := Int.fmod_lt_of_pos n2 hd2
  have e1 : n1.fdiv d1 * d1 ≤ n1 := by linarith
  have e2 : n2 < (n2.fdiv d2 + 1) * d2 := by nlinarith
  have e3 : n1.fdiv d1 * d1 * d2 ≤ n1 * d2 :=
    mul_le_mul_of_nonneg_right e1 hd2.le
  have e4 : n2 * d1 < ((n2.fdiv d2 + 1) * d2) * d1 :=
    mul_lt_mul_of_pos_right e2 hd1
  have e5 : n1.fdiv d1 * (d1 * d2) < (n2.fdiv d2 + 1) * (d1 * d2) := by
    nlinarith
  have hff : n1.fdiv d1 ≤ n2.fdiv d2 := by
    have := lt_of_mul_lt_mul_right e5 (by positivity : (0:ℤ) ≤ d1 * d2)
    omega
  rcases eq_or_lt_of_le hff with heq | hlt
  · -- equal floors: compare the remainders exactly
    have hrr : n1.fmod d1 * d2 ≤ n2.fmod d2 * d1 := by
      have q1 : (n1 - n1.fdiv d1 * d1) * d2 = n1.fmod d1 * d2 := by rw [hr1]
      have q2 : (n2 - n2.fdiv d2 * d2) * d1 = n2.fmod d2 * d1 := by rw [hr2]
      rw [heq] at q1
      nlinarith [q1, q2, h]
    have k1 : ¬ (d1 ≤ 2 * n1.fmod d1 ∧ 2 * n2.fmod d2 < d2) := by
      rintro ⟨ka, kb⟩
      have m1 : d1 * d2 ≤ 2 * n1.fmod d1 * d2 :=
        mul_le_mul_of_nonneg_right ka hd2.le
      have m2 : 2 * n2.fmod d2 * d1 < d2 * d1 :=
        mul_lt_mul_of_pos_right kb hd1
      nlinarith
    have k2 : ¬ (d1 < 2 * n1.fmod d1 ∧ 2 * n2.fmod d2 = d2) := by
      rintro ⟨ka, kb⟩
      have m1 : d1 * d2 < 2 * n1.fmod d1 * d2 :=
        mul_lt_mul_of_pos_right ka hd2
      nlinarith
    unfold pyRound
    rw [hr1, hr2, ← heq]
    split_ifs <;> omega
  · -- strictly smaller floor: the bounds suffice
    unfold pyRound
    split_ifs <;> omega

/-- Strict increase of `pyRound` when the rational values are more
than one apart: `n₁/d₁ + 1 < n₂/d₂` (multiplied out) forces
`pyRound n₁ d₁ < pyRound n₂ d₂`. -/
theorem pyRound_lt_of_gap {n1 d1 n2 d2 : ℤ} (hd1 : 0 < d1) (hd2 : 0 < d2)
    (h : n1 * d2 + d1 * d2 < n2 * d1) : pyRound n1 d1 < pyRound n2 d2 := by
  by_contra hcon
  push_neg at hcon
  have B1 := (pyRound_bounds (n := n2) hd2).1
  have B2 := (pyRound_bounds (n := n1) hd1).2
  have M1 : (2 * n2 - d2) * d1 ≤ (2 * pyRound n2 d2 * d2) * d1 :=
    mul_le_mul_of_nonneg_right B1 hd1.le
  have M2 : pyRound n2 d2 * (2 * d2 * d1) ≤ pyRound n1 d1 * (2 * d2 * d1) :=
    mul_le_mul_of_nonneg_right hcon (by positivity)
  have M3 : (2 * pyRound n1 d1 * d1) * d2 ≤ (2 * n1 + d1) * d2 :=
    mul_le_mul_of_nonneg_right B2 hd2.le
  nlinarith

/-! ### Branch characterisations of `xp_required_for_level` -/

theorem xp_required_nonpos (curve : String) (base_xp a b : ℤ) {L : ℤ}
    (hL : L ≤ 0) : xp_required_for_level curve base_xp a b L = 0 := by
  have h : max 0 L = 0 := by omega
  simp [xp_required_for_level, h]

theorem xp_required_linear {L : ℤ} (base_xp a b : ℤ) (hL : 1 ≤ L) :
    xp_required_for_level "linear" base_xp a b L =
      max 0 ((base_xp + a) * L) := by
  have h1 : max 0 L = L := by omega
  have h2 : curve_norm "linear" = "linear" := by decide
  simp only [xp_required_for_level, h1, h2]
  rw [if_neg (by omega), if_true, pyRound_one]

theorem xp_required_quadratic {L : ℤ} (base_xp a b : ℤ) (hL : 1 ≤ L) :
    xp_required_for_level "quadratic" base_xp a b L =
      max 0 (base_xp * L ^ 2 + a * L + b) := by
  have h1 : max 0 L = L := by omega
  have h2 : curve_norm "quadratic" = "quadratic" := by decide
  simp only [xp_required_for_level, h1, h2]
  rw [if_neg (by omega), if_neg (by decide), if_neg (by decide), pyRound_one]

theorem xp_required_exponential {L : ℤ} (base_xp a b : ℤ) (hL : 1 ≤ L) :
    xp_required_for_level "exponential" base_xp a b L =
      pyRound (max 0 (base_xp * (23 ^ L.toNat - 20 ^ L.toNat)))
        (20 ^ L.toNat) := by
  have h1 : max 0 L = L := by omega
  have h2 : curve_norm "exponential" = "exponential" := by decide
  simp only [xp_required_for_level, h1, h2]
  rw [if_neg (by omega), if_neg (by decide), if_true]

theorem xp_required_nonneg (curve : String) (base_xp a b L : ℤ) :
    0 ≤ xp_required_for_level curve base_xp a b L := by
  simp only [xp_required_for_level]
  split_ifs
  · exact le_refl 0
  · exact pyRound_nonneg one_pos (le_max_left _ _)
  · exact pyRound_nonneg (by positivity) (le_max_left _ _)
  · exact pyRound_nonneg one_pos (le_max_left _ _)

/-! ### Monotonicity of the curves -/

theorem req_linear_default (m : ℕ) :
    xp_required_for_level "linear" 100 50 0 (m : ℤ) = 150 * m := by
  cases m with
  | zero => simp [xp_required_nonpos]
  | succ k =>
    rw [xp_required_linear _ _ _ (by push_cast; omega)]
    rw [max_eq_right (by positivity)]
    push_cast
    ring

theorem req_quadratic_default (m : ℕ) :
    xp_required_for_level "quadratic" 100 50 0 (m : ℤ) =
      100 * (m : ℤ) ^ 2 + 50 * m := by
  cases m with
  | zero => simp [xp_required_nonpos]
  | succ k =>
    rw [xp_required_quadratic _ _ _ (by push_cast; omega)]
    rw [max_eq_right (by positivity)]
    push_cast
    ring

theorem req_linear_strictMono :
    StrictMono (fun m : ℕ => xp_required_for_level "linear" 100 50 0 (m : ℤ)) := by
  intro m k h
  simp only [req_linear_default]
  have : (m : ℤ) < k := by exact_mod_cast h
  nlinarith

theorem req_quadratic_strictMono :
    StrictMono
      (fun m : ℕ => xp_required_for_level "quadratic" 100 50 0 (m : ℤ)) := by
  intro m k h
  simp only [req_quadratic_default]
  have h1 : (m : ℤ) < k := by exact_mod_cast h
  have h2 : (0 : ℤ) ≤ m := by positivity
  nlinarith

theorem req_exponential_strictMono :
    StrictMono
      (fun m : ℕ => xp_required_for_level "exponential" 100 50 0 (m : ℤ)) := by
  apply strictMono_nat_of_lt_succ
  intro m
  rcases Nat.eq_zero_or_pos m with h0 | hpos
  · subst h0
    decide
  · have h1 : (1 : ℤ) ≤ (m : ℤ) := by exact_mod_cast hpos
    rw [xp_required_exponential _ _ _ h1,
      xp_required_exponential _ _ _ (by omega)]
    have htm : ((m : ℤ)).toNat = m := by omega
    have ht1 : (((m + 1 : ℕ) : ℤ)).toNat = m + 1 := by omega
    rw [htm, ht1]
    have hXY : (20 : ℤ) ^ m ≤ 23 ^ m :=
      pow_le_pow_left (by norm_num) (by norm_num) m
    have hXY1 : (20 : ℤ) ^ (m + 1) ≤ 23 ^ (m + 1) :=
      pow_le_pow_left (by norm_num) (by norm_num) (m + 1)
    have hY : (0 : ℤ) < 20 ^ m := by positivity
    apply pyRound_lt_of_gap (by positivity) (by positivity)
    rw [max_eq_right (by nlinarith), max_eq_right (by nlinarith)]
    rw [pow_succ, pow_succ]
    nlinarith [mul_pos hY hY, mul_le_mul_of_nonneg_right hXY hY.le]

/-- Claim C6: for every supported curve, with parameters valid for
monotonicity (`base_xp ≥ 0` and `curve_a ≥ 0`; the defaults
`base_xp = 100, a = 50, b = 0` qualify), `xp_required_for_level` is
non-decreasing in the level, and is `0` for every level `≤ 0`. -/
theorem xp_required_monotone (curve : String)
    (hc : curve = "linear" ∨ curve = "quadratic" ∨ curve = "exponential")
    {base_xp a : ℤ} (b : ℤ) (hbase : 0 ≤ base_xp) (ha : 0 ≤ a) :
    (∀ L : ℤ, xp_required_for_level curve base_xp a b L ≤
        xp_required_for_level curve base_xp a b (L + 1)) ∧
    (∀ L : ℤ, L ≤ 0 → xp_required_for_level curve base_xp a b L = 0) := by
  refine ⟨?_, fun L hL => xp_required_nonpos curve base_xp a b hL⟩
  intro L
  rcases le_or_lt (L + 1) 0 with hL1 | hL1
  · rw [xp_required_nonpos _ _ _ _ (by omega), xp_required_nonpos _ _ _ _ hL1]
  rcases le_or_lt L 0 with hL0 | hL0
  · rw [xp_required_nonpos _ _ _ _ hL0]
    exact xp_required_nonneg _ _ _ _ _
  -- now 1 ≤ L
  have h1 : (1 : ℤ) ≤ L := hL0
  have h2 : (1 : ℤ) ≤ L + 1 := by omega
  rcases hc with hc | hc | hc <;> subst hc
  · rw [xp_required_linear _ _ _ h1, xp_required_linear _ _ _ h2]
    apply max_le_max le_rfl
    nlinarith
  · rw [xp_required_quadratic _ _ _ h1, xp_required_quadratic _ _ _ h2]
    apply max_le_max le_rfl
    nlinarith
  · rw [xp_required_exponential _ _ _ h1, xp_required_exponential _ _ _ h2]
    have htm : (L + 1).toNat = L.toNat + 1 := by omega
    rw [htm]
    have hXY : (20 : ℤ) ^ L.toNat ≤ 23 ^ L.toNat :=
      pow_le_pow_left (by norm_num) (by norm_num) _
    have hXY1 : (20 : ℤ) ^ (L.toNat + 1) ≤ 23 ^ (L.toNat + 1) :=
      pow_le_pow_left (by norm_num) (by norm_num) _
    have hY : (0 : ℤ) < 20 ^ L.toNat := by positivity
    apply pyRound_mono (by positivity) (by positivity)
    rw [max_eq_right (by nlinarith), max_eq_right (by nlinarith)]
    rw [pow_succ, pow_succ]
    nlinarith [mul_nonneg (mul_nonneg hbase (by positivity : (0:ℤ) ≤ 23 ^ L.toNat)) hY.le,
      mul_le_mul_of_nonneg_right hXY hY.le,
      mul_nonneg hbase hY.le]

/-- A no-hypothesis instantiation of `xp_required_monotone` at the
default parameters, exhibiting all three curves. -/
theorem xp_required_monotone_witness :
    ((("quadratic" : String) = "linear" ∨ ("quadratic" : String) = "quadratic" ∨
        ("quadratic" : String) = "exponential") ∧ (0:ℤ) ≤ 100 ∧ (0:ℤ) ≤ 50) ∧
    (∀ L : ℤ, xp_required_for_level "quadratic" 100 50 0 L ≤
        xp_required_for_level "quadratic" 100 50 0 (L + 1)) ∧
    (∀ L : ℤ, L ≤ 0 → xp_required_for_level "quadratic" 100 50 0 L = 0) :=
  ⟨⟨Or.inr (Or.inl rfl), by norm_num, by norm_num⟩,
    xp_required_monotone "quadratic" (Or.inr (Or.inl rfl)) 0
      (by norm_num) (by norm_num)⟩

/-- Spot checks of the curve embedding against the spec's linear and
exponential scenarios: `requiredXp(3) = 45` for linear with
`base = 10, a = 5`, and `requiredXp(1) = 15`, `requiredXp(2) = 32` for
exponential with `base = 100` (the exact rational model reproduces the
float values). -/
theorem curve_scenarios :
    xp_required_for_level "linear" 10 5 0 3 = 45 ∧
    xp_required_for_level "exponential" 100 50 0 1 = 15 ∧
    xp_required_for_level "exponential" 100 50 0 2 = 32 ∧
    level_from_total_xp "exponential" 100 50 0 32 = 2 := by
  refine ⟨?_, ?_, ?_, ?_⟩ <;> decide

/-! ### Correctness of the level search -/

/-- The binary search returns the unique `L` characterising the
predicate `xp_required_for_level · ≤ total`, provided the search
interval brackets `L` and the fuel covers the interval length. -/
theorem level_search_eq (curve : String) (base_xp a b total : ℤ) (L : ℕ)
    (H : ∀ m : ℕ, xp_required_for_level curve base_xp a b (m : ℤ) ≤ total ↔
      m ≤ L) :
    ∀ fuel lo hi, hi - lo ≤ fuel → lo ≤ L → L ≤ hi →
      level_from_total_xp_search curve base_xp a b total fuel lo hi = L := by
  intro fuel
  induction fuel with
  | zero =>
    intro lo hi h1 h2 h3
    show lo = L
    omega
  | succ n ih =>
    intro lo hi h1 h2 h3
    rw [level_from_total_xp_search]
    by_cases hlt : lo < hi
    · rw [if_pos hlt]
      by_cases hc : xp_required_for_level curve base_xp a b
          (((lo + hi + 1) / 2 : ℕ) : ℤ) ≤ total
      · rw [if_pos hc]
        exact ih _ hi (by omega) ((H _).1 hc) h3
      · rw [if_neg hc]
        have hgt : ¬ ((lo + hi + 1) / 2 ≤ L) := fun hh => hc ((H _).2 hh)
        exact ih lo _ (by omega) h2 (by omega)
    · rw [if_neg hlt]
      omega

/-- The doubling ramp always ends strictly above `L` when started below
the 10000 cap with enough head-room in the fuel. -/
theorem level_ramp_gt (curve : String) (base_xp a b total : ℤ) (L : ℕ)
    (hL : L ≤ 5000)
    (H : ∀ m : ℕ, xp_required_for_level curve base_xp a b (m : ℤ) ≤ total ↔
      m ≤ L) :
    ∀ fuel hi, 1 ≤ hi → L < 2 ^ fuel * hi →
      L < level_from_total_xp_ramp curve base_xp a b total fuel hi := by
  intro fuel
  induction fuel with
  | zero =>
    intro hi h1 h2
    show L < hi
    simpa using h2
  | succ n ih =>
    intro hi h1 h2
    rw [level_from_total_xp_ramp]
    by_cases hc : xp_required_for_level curve base_xp a b (hi : ℤ) ≤ total
    · rw [if_pos hc]
      have hhiL : hi ≤ L := (H hi).1 hc
      rw [if_neg (by omega)]
      have hpow : 2 ^ (n + 1) * hi = 2 ^ n * (2 * hi) := by ring
      exact ih (2 * hi) (by omega) (hpow ▸ h2)
    · rw [if_neg hc]
      have : ¬ hi ≤ L := fun hh => hc ((H hi).2 hh)
      omega

/-- Claim C3: for every level `L ∈ [0, 200]` and each of the three
curve types at the default parameters `base_xp = 100, a = 50, b = 0`,
`level_from_total_xp` applied to `xp_required_for_level L` returns
exactly `L`. -/
theorem level_roundtrip_defaults (curve : String)
    (hc : curve = "linear" ∨ curve = "quadratic" ∨ curve = "exponential")
    (L : ℕ) (hL : L ≤ 200) :
    level_from_total_xp curve 100 50 0
      (xp_required_for_level curve 100 50 0 (L : ℤ)) = L := by
  have sm : StrictMono
      (fun m : ℕ => xp_required_for_level curve 100 50 0 (m : ℤ)) := by
    rcases hc with hc | hc | hc <;> subst hc
    · exact req_linear_strictMono
    · exact req_quadratic_strictMono
    · exact req_exponential_strictMono
  have H : ∀ m : ℕ, xp_required_for_level curve 100 50 0 (m : ℤ) ≤
      xp_required_for_level curve 100 50 0 (L : ℤ) ↔ m ≤ L :=
    fun m => sm.le_iff_le
  simp only [level_from_total_xp]
  rw [max_eq_right (xp_required_nonneg _ _ _ _ _)]
  have hramp := level_ramp_gt curve 100 50 0 _ L (by omega) H 10001 1
    (le_refl 1)
    (by
      have h8 : (2:ℕ) ^ 8 ≤ 2 ^ 10001 :=
        Nat.pow_le_pow_right (by norm_num) (by norm_num)
      have h9 : L < 2 ^ 8 := by omega
      omega)
  exact level_search_eq curve 100 50 0 _ L H _ 0 _ (by omega) (Nat.zero_le L)
    (le_of_lt hramp)

/-- A no-hypothesis instantiation of `level_roundtrip_defaults` at the
exponential curve and level 9. -/
theorem level_roundtrip_defaults_witness :
    (("exponential" : String) = "linear" ∨
      ("exponential" : String) = "quadratic" ∨
      ("exponential" : String) = "exponential") ∧ 9 ≤ 200 ∧
    level_from_total_xp "exponential" 100 50 0
      (xp_required_for_level "exponential" 100 50 0 ((9 : ℕ) : ℤ)) = 9 :=
  ⟨Or.inr (Or.inr rfl), by norm_num,
    level_roundtrip_defaults "exponential" (Or.inr (Or.inr rfl)) 9
      (by norm_num)⟩

/-- Claim C5: concrete quadratic-curve values at the default parameters
`base = 100, a = 50, b = 0`:
`requiredXp(0) = 0`, `requiredXp(1) = 150`, `requiredXp(2) = 500`,
`levelFromXp(149) = 0`, `levelFromXp(150) = 1`, `levelFromXp(499) = 1`,
`levelFromXp(500) = 2`. -/
theorem quadratic_default_scenario :
    xp_required_for_level "quadratic" 100 50 0 0 = 0 ∧
    xp_required_for_level "quadratic" 100 50 0 1 = 150 ∧
    xp_required_for_level "quadratic" 100 50 0 2 = 500 ∧
    level_from_total_xp "quadratic" 100 50 0 149 = 0 ∧
    level_from_total_xp "quadratic" 100 50 0 150 = 1 ∧
    level_from_total_xp "quadratic" 100 50 0 499 = 1 ∧
    level_from_total_xp "quadratic" 100 50 0 500 = 2 := by
  refine ⟨?_, ?_, ?_, ?_, ?_, ?_, ?_⟩ <;> decide

/-! ### The progression pipeline: cooldown, timestamp, announcement -/

/-- Claim C1 (code bug witness): the announcement condition of
`on_message` is `if awarded or new_level > 0`, not
`if new_level > old_level`.  At the concrete input below the subject
is already at level 1, gains 10 XP (150 → 160, still level 1, no
reward granted), yet the code emits a "Level Up" announcement; the
specified behaviour is no notification when the level does not
change. -/
theorem announce_without_level_up :
    (on_message DEFAULT_SETTINGS plain_message 10 100
      (some ⟨150, 1, 0⟩) [] no_env).announced = true ∧
    (on_message DEFAULT_SETTINGS plain_message 10 100
      (some ⟨150, 1, 0⟩) [] no_env).row = some ⟨160, 1, 100⟩ := by
  constructor <;> decide

/-- Claim C2: for a subject with an existing row, an event strictly
inside the cooldown window leaves the entire observable state
untouched (same row, no announcement, no rewards), and an event at or
after the end of the window is not rejected by the cooldown check. -/
theorem cooldown_rejects_without_mutation
    (s : GuildSettings) (msg : MessageEvent) (base_gain now_ts : ℤ)
    (r : UserRow) (rewards : List (ℤ × ℤ)) (env : GrantEnv) :
    (now_ts - r.last_message_ts < s.cooldown_seconds →
      on_message s msg base_gain now_ts (some r) rewards env =
        ⟨some r, false, []⟩) ∧
    (s.cooldown_seconds ≤ now_ts - r.last_message_ts →
      cooldown_rejected s (some r) now_ts = false) := by
  constructor
  · intro h
    have hcd : cooldown_rejected s (some r) now_ts = true := by
      simp only [cooldown_rejected, decide_eq_true_eq]
      omega
    unfold on_message
    split_ifs with c1 c2 c3 c4 <;> rfl
  · intro h
    simp only [cooldown_rejected, decide_eq_false_iff_not]
    omega

/-- A concrete instantiation of `cooldown_rejects_without_mutation`:
with the default 60-second cooldown and a last accepted event at
t = 100, an event at t = 130 is dropped without mutation and an event
at t = 160 passes the cooldown check. -/
theorem cooldown_rejects_without_mutation_witness :
    on_message DEFAULT_SETTINGS plain_message 10 130
      (some ⟨0, 0, 100⟩) [] no_env = ⟨some ⟨0, 0, 100⟩, false, []⟩ ∧
    cooldown_rejected DEFAULT_SETTINGS (some ⟨0, 0, 100⟩) 160 = false :=
  ⟨(cooldown_rejects_without_mutation DEFAULT_SETTINGS plain_message 10 130
      ⟨0, 0, 100⟩ [] no_env).1 (by decide),
   (cooldown_rejects_without_mutation DEFAULT_SETTINGS plain_message 10 160
      ⟨0, 0, 100⟩ [] no_env).2 (by decide)⟩

/-- Claim C4 counterexample: for a subject with **no** stored row, an
event that passes the cooldown check does *not* get its timestamp
persisted — the `UPDATE` of `set_last_message_ts` targets a
nonexistent row, and the row later inserted by the XP apply carries
`last_message_ts = 0`, not `now` (= 100 here). -/
theorem timestamp_not_committed_for_fresh_subject :
    (on_message DEFAULT_SETTINGS plain_message 10 100 none [] no_env).row =
      some ⟨10, 0, 0⟩ ∧ (0 : ℤ) ≠ 100 := by
  constructor <;> decide

/-- Claim C4 (amended to subjects with an existing progress record):
once the cooldown check has passed, `last_activity_ts` is updated to
`now` even when the computed gain is 0, and when the gain is ≤ 0 the
timestamp write is the *only* mutation (xp and level unchanged, no
announcement, no rewards). -/
theorem timestamp_commit_existing_subject
    (s : GuildSettings) (msg : MessageEvent) (base_gain now_ts : ℤ)
    (r : UserRow) (rewards : List (ℤ × ℤ)) (env : GrantEnv)
    (h1 : (msg.author_is_bot && s.ignore_bots == 1) = false)
    (h2 : msg.channel_ignored = false)
    (h3 : msg.has_blacklisted_role = false)
    (h4 : ¬ msg.content_len < s.min_chars)
    (h5 : s.cooldown_seconds ≤ now_ts - r.last_message_ts) :
    (∃ r', (on_message s msg base_gain now_ts (some r) rewards env).row =
        some r' ∧ r'.last_message_ts = now_ts) ∧
    (computed_gain s msg base_gain ≤ 0 →
      on_message s msg base_gain now_ts (some r) rewards env =
        ⟨some { r with last_message_ts := now_ts }, false, []⟩) := by
  have hcd : cooldown_rejected s (some r) now_ts = false := by
    simp only [cooldown_rejected, decide_eq_false_iff_not]
    omega
  unfold on_message
  rw [h1, h2, h3]
  simp only [Bool.false_eq_true, if_false, if_neg h4, hcd]
  by_cases hg : computed_gain s msg base_gain ≤ 0
  · rw [if_pos hg]
    exact ⟨⟨_, rfl, rfl⟩, fun _ => rfl⟩
  · rw [if_neg hg]
    refine ⟨⟨_, rfl, rfl⟩, fun hc => absurd hc hg⟩

/-- A concrete instantiation of `timestamp_commit_existing_subject`:
default settings, subject at 150 XP with an expired cooldown. -/
theorem timestamp_commit_existing_subject_witness :
    ∃ r', (on_message DEFAULT_SETTINGS plain_message 10 100
        (some ⟨150, 1, 0⟩) [] no_env).row = some r' ∧
      r'.last_message_ts = 100 :=
  (timestamp_commit_existing_subject DEFAULT_SETTINGS plain_message 10 100
    ⟨150, 1, 0⟩ [] no_env (by decide) (by decide) (by decide) (by decide)
    (by decide)).1

/-- Claim C10: for a subject with no stored row, the first accepted
event with positive gain leaves a row whose `last_message_ts` is 0
(the timestamp write targeted a nonexistent row and the inserted row
keeps the column default), so *any* later event at `t ≥
cooldown_seconds` — in particular one immediately afterwards — also
passes the cooldown check, and such a second event gains XP on top of
the first. -/
theorem fresh_subject_escapes_cooldown
    (s : GuildSettings) (msg msg2 : MessageEvent) (bg bg2 now_ts now2 : ℤ)
    (rewards : List (ℤ × ℤ)) (env : GrantEnv)
    (h1 : (msg.author_is_bot && s.ignore_bots == 1) = false)
    (h2 : msg.channel_ignored = false)
    (h3 : msg.has_blacklisted_role = false)
    (h4 : ¬ msg.content_len < s.min_chars)
    (h5 : s.cooldown_seconds ≤ now_ts)
    (hg : 0 < computed_gain s msg bg) :
    ∃ row1,
      (on_message s msg bg now_ts none rewards env).row = some row1 ∧
      row1.last_message_ts = 0 ∧
      row1.xp = computed_gain s msg bg ∧
      (∀ t : ℤ, s.cooldown_seconds ≤ t →
        cooldown_rejected s (some row1) t = false) ∧
      ((msg2.author_is_bot && s.ignore_bots == 1) = false →
        msg2.channel_ignored = false →
        msg2.has_blacklisted_role = false →
        ¬ msg2.content_len < s.min_chars →
        s.cooldown_seconds ≤ now2 →
        0 < computed_gain s msg2 bg2 →
        ∃ row2,
          (on_message s msg2 bg2 now2 (some row1) rewards env).row =
            some row2 ∧
          row2.xp = row1.xp + computed_gain s msg2 bg2 ∧
          row2.last_message_ts = now2) := by
  have hcd : cooldown_rejected s none now_ts = false := by
    simp only [cooldown_rejected, decide_eq_false_iff_not]
    omega
  have hout : (on_message s msg bg now_ts none rewards env).row =
      some ⟨computed_gain s msg bg,
        (level_from_total_xp s.curve_type s.base_xp s.curve_a s.curve_b
          (computed_gain s msg bg) : ℤ), 0⟩ := by
    unfold on_message
    rw [h1, h2, h3]
    simp only [Bool.false_eq_true, if_false, if_neg h4, hcd, if_neg (by omega :
      ¬ computed_gain s msg bg ≤ 0)]
    simp only [add_xp_and_check_level_up, set_last_message_ts]
    rw [zero_add, max_eq_right hg.le]
  refine ⟨_, hout, rfl, rfl, ?_, ?_⟩
  · intro t ht
    simp only [cooldown_rejected, decide_eq_false_iff_not]
    omega
  · intro g1 g2 g3 g4 g5 g6
    have hcd2 : cooldown_rejected s
        (some ⟨computed_gain s msg bg,
          (level_from_total_xp s.curve_type s.base_xp s.curve_a s.curve_b
            (computed_gain s msg bg) : ℤ), 0⟩) now2 = false := by
      simp only [cooldown_rejected, decide_eq_false_iff_not]
      omega
    refine ⟨⟨max 0 (computed_gain s msg bg + computed_gain s msg2 bg2),
      (level_from_total_xp s.curve_type s.base_xp s.curve_a s.curve_b
        (max 0 (computed_gain s msg bg + computed_gain s msg2 bg2)) : ℤ),
      now2⟩, ?_, ?_, rfl⟩
    · unfold on_message
      rw [g1, g2, g3]
      simp only [Bool.false_eq_true, if_false, if_neg g4, hcd2,
        if_neg (by omega : ¬ computed_gain s msg2 bg2 ≤ 0)]
      simp only [add_xp_and_check_level_up, set_last_message_ts]
    · show max 0 (computed_gain s msg bg + computed_gain s msg2 bg2) =
        computed_gain s msg bg + computed_gain s msg2 bg2
      omega

/-- A concrete instantiation of `fresh_subject_escapes_cooldown` at the
default settings: two plain messages at the same instant t = 100 both
gain XP for a fresh subject. -/
theorem fresh_subject_escapes_cooldown_witness :
    ∃ row1,
      (on_message DEFAULT_SETTINGS plain_message 10 100 none []
        no_env).row = some row1 ∧
      row1.last_message_ts = 0 ∧
      row1.xp = computed_gain DEFAULT_SETTINGS plain_message 10 ∧
      (∀ t : ℤ, DEFAULT_SETTINGS.cooldown_seconds ≤ t →
        cooldown_rejected DEFAULT_SETTINGS (some row1) t = false) ∧
      ((plain_message.author_is_bot &&
          DEFAULT_SETTINGS.ignore_bots == 1) = false →
        plain_message.channel_ignored = false →
        plain_message.has_blacklisted_role = false →
        ¬ plain_message.content_len < DEFAULT_SETTINGS.min_chars →
        DEFAULT_SETTINGS.cooldown_seconds ≤ 100 →
        0 < computed_gain DEFAULT_SETTINGS plain_message 12 →
        ∃ row2,
          (on_message DEFAULT_SETTINGS plain_message 12 100 (some row1) []
            no_env).row = some row2 ∧
          row2.xp = row1.xp + computed_gain DEFAULT_SETTINGS plain_message 12 ∧
          row2.last_message_ts = 100) :=
  fresh_subject_escapes_cooldown DEFAULT_SETTINGS plain_message
    plain_message 10 12 100 100 [] no_env (by decide) (by decide) (by decide)
    (by decide) (by decide) (by decide)

/-! ### The reward scan -/

/-- The grant loop keeps exactly the rows whose role exists, is not
already held, and whose grant succeeds — a failure at one row never
removes later rows. -/
theorem award_scan_eq_filter (env : GrantEnv) (l : List (ℤ × ℤ)) :
    award_scan env l = l.filter
      (fun p => env.role_exists p.2 && !env.member_has p.2 &&
        env.add_ok p.2) := by
  induction l with
  | nil => rfl
  | cons p rest ih =>
    obtain ⟨lvl, rid⟩ := p
    rw [award_scan, List.filter_cons]
    cases hre : env.role_exists rid <;>
      cases hmh : env.member_has rid <;>
      cases hok : env.add_ok rid <;>
      simp [hre, hmh, hok, ih]

/-- Claim C7: when an XP application raises the level from
`r.level` to `new_level`, the reward scan's query returns exactly the
configured rewards with a level in `(r.level, new_level]`, sorted in
ascending level order, and the resulting grants are exactly the query
rows whose individual grant succeeds — a denied or already-held grant
is skipped without aborting the rest of the scan. -/
theorem reward_scan_attempts (s : GuildSettings) (r : UserRow)
    (rewards : List (ℤ × ℤ)) (env : GrantEnv) (gained : ℤ) :
    List.Sorted reward_le
      (rewards_between rewards (r.level + 1)
        ((add_xp_and_check_level_up s (some r) rewards env
          gained).new_level : ℤ)) ∧
    (∀ p : ℤ × ℤ,
      p ∈ rewards_between rewards (r.level + 1)
          ((add_xp_and_check_level_up s (some r) rewards env
            gained).new_level : ℤ) ↔
        p ∈ rewards ∧ r.level < p.1 ∧
          p.1 ≤ ((add_xp_and_check_level_up s (some r) rewards env
            gained).new_level : ℤ)) ∧
    (r.level < ((add_xp_and_check_level_up s (some r) rewards env
        gained).new_level : ℤ) →
      (add_xp_and_check_level_up s (some r) rewards env gained).awarded =
        (rewards_between rewards (r.level + 1)
          ((add_xp_and_check_level_up s (some r) rewards env
            gained).new_level : ℤ)).filter
          (fun p => env.role_exists p.2 && !env.member_has p.2 &&
            env.add_ok p.2)) := by
  refine ⟨?_, fun p => ?_, fun hlt => ?_⟩
  · unfold rewards_between
    exact List.sorted_insertionSort _ _
  · unfold rewards_between
    rw [List.mem_insertionSort, List.mem_filter]
    simp only [Bool.and_eq_true, decide_eq_true_eq]
    constructor
    · rintro ⟨hp, hlo, hhi⟩
      exact ⟨hp, by omega, hhi⟩
    · rintro ⟨hp, hlo, hhi⟩
      exact ⟨hp, by omega, hhi⟩
  · simp only [add_xp_and_check_level_up] at hlt ⊢
    rw [if_pos hlt]
    exact award_scan_eq_filter env _

/-- A concrete instantiation of `reward_scan_attempts` exhibiting the
spec's scenario: a subject at level 3 jumps to level 6 with rewards
configured at levels 4, 5 and 6 (stored unsorted); the level-5 grant
is denied, and the grants for levels 4 and 6 still succeed, in
ascending order. -/
theorem reward_scan_attempts_witness :
    (3 : ℤ) < ((add_xp_and_check_level_up DEFAULT_SETTINGS
        (some ⟨1050, 3, 0⟩) [(5, 55), (4, 44), (6, 66)] deny55_env
        2900).new_level : ℤ) ∧
    (add_xp_and_check_level_up DEFAULT_SETTINGS (some ⟨1050, 3, 0⟩)
        [(5, 55), (4, 44), (6, 66)] deny55_env 2900).awarded =
      [(4, 44), (6, 66)] := by
  refine ⟨by decide, ?_⟩
  rw [(reward_scan_attempts DEFAULT_SETTINGS ⟨1050, 3, 0⟩
      [(5, 55), (4, 44), (6, 66)] deny55_env 2900).2.2 (by decide)]
  decide

/-! ### The leaderboard -/

/-- Looking up a subject present in a table with unique user ids finds
its XP. -/
theorem user_xp_lookup_eq {table : List (ℤ × ℤ)} {uid x : ℤ}
    (hnodup : (table.map Prod.fst).Nodup) (hmem : (uid, x) ∈ table) :
    user_xp_lookup table uid = some x := by
  induction table with
  | nil => cases hmem
  | cons p rest ih =>
    simp only [List.map_cons, List.nodup_cons] at hnodup
    rcases List.mem_cons.mp hmem with heq | hrest
    · subst heq
      simp [user_xp_lookup]
    · have huid : uid ∈ rest.map Prod.fst := by
        have : Prod.fst (uid, x) ∈ rest.map Prod.fst :=
          List.mem_map_of_mem Prod.fst hrest
        simpa using this
      have hne : (p.1 == uid) = false := by
        rcases hnodup with ⟨hnp, _⟩
        simp only [beq_eq_false_iff_ne, ne_eq]
        intro h
        exact hnp (h ▸ huid)
      unfold user_xp_lookup at ih ⊢
      rw [List.find?_cons_of_neg _ (by simp [hne])]
      exact ih hnodup.2 hrest

/-- Claim C8: for every stored subject, `user_rank` equals 1 plus the
number of stored subjects with strictly greater XP (so tied subjects
share a rank), and `top_users` returns rows ordered by XP descending
with user-id ascending as the tie-break; the scenario with A and B at
300 XP and C at 100 XP gives ranks 1, 1 and 3 and leaderboard order
A, B, C. -/
theorem rank_and_leaderboard (table : List (ℤ × ℤ)) (uid x : ℤ)
    (limit offset : ℕ)
    (hnodup : (table.map Prod.fst).Nodup) (hmem : (uid, x) ∈ table) :
    user_rank table uid =
      1 + (((table.filter fun p => decide (x < p.2)).length : ℕ) : ℤ) ∧
    List.Sorted leaderboard_le (top_users table limit offset) ∧
    (∀ p, p ∈ top_users table limit offset → p ∈ table) ∧
    (user_rank [(1, 300), (2, 300), (3, 100)] 1 = 1 ∧
      user_rank [(1, 300), (2, 300), (3, 100)] 2 = 1 ∧
      user_rank [(1, 300), (2, 300), (3, 100)] 3 = 3 ∧
      top_users [(1, 300), (2, 300), (3, 100)] 10 0 =
        [(1, 300), (2, 300), (3, 100)]) := by
  refine ⟨?_, ?_, ?_, by decide, by decide, by decide, by decide⟩
  · unfold user_rank
    rw [user_xp_lookup_eq hnodup hmem]
    dsimp only
    omega
  · unfold top_users
    exact (List.sorted_insertionSort _ _).sublist
      ((List.take_sublist _ _).trans (List.drop_sublist _ _))
  · intro p hp
    unfold top_users at hp
    have h1 : p ∈ List.insertionSort leaderboard_le table :=
      ((List.take_sublist _ _).trans (List.drop_sublist _ _)).subset hp
    exact (List.mem_insertionSort _).mp h1

/-- A concrete instantiation of `rank_and_leaderboard` at the
tied-rank scenario. -/
theorem rank_and_leaderboard_witness :
    user_rank [(1, 300), (2, 300), (3, 100)] 1 =
      1 + ((([((1:ℤ), (300:ℤ)), (2, 300), (3, 100)].filter
        fun p => decide ((300:ℤ) < p.2)).length : ℕ) : ℤ) ∧
    List.Sorted leaderboard_le
      (top_users [(1, 300), (2, 300), (3, 100)] 10 0) :=
  ⟨(rank_and_leaderboard [(1, 300), (2, 300), (3, 100)] 1 300 10 0
      (by decide) (by decide)).1,
   (rank_and_leaderboard [(1, 300), (2, 300), (3, 100)] 1 300 10 0
      (by decide) (by decide)).2.1⟩

/-! ### Bulk recalculation -/

/-- Claim C9: after a recalc run every subject's stored XP is
unchanged, its stored level equals `level_from_total_xp` of that XP
under the current curve (written downward as well when the curve
lowered the level), and its timestamp is untouched; grant events are
produced only for subjects resolvable to a member and only when the
recomputed level strictly exceeds the stored one (so a lowered level
produces no reward side effect, and nothing is ever revoked — the
recalc emits no removal operation at all). -/
theorem recalc_consistency (s : GuildSettings) (rewards : List (ℤ × ℤ))
    (env : ℤ → GrantEnv) (is_member : ℤ → Bool)
    (table : List (ℤ × UserRow))
    (hxp : ∀ p ∈ table, 0 ≤ (Prod.snd p).xp) :
    (cfg_recalc s rewards env is_member table).1 =
      table.map (fun p => (p.1,
        (⟨p.2.xp,
          (level_from_total_xp s.curve_type s.base_xp s.curve_a s.curve_b
            p.2.xp : ℤ),
          p.2.last_message_ts⟩ : UserRow))) ∧
    (∀ e ∈ (cfg_recalc s rewards env is_member table).2,
      is_member e.1 = true ∧
      ∃ p ∈ table, p.1 = e.1 ∧
        p.2.level < (level_from_total_xp s.curve_type s.base_xp s.curve_a
          s.curve_b p.2.xp : ℤ)) := by
  constructor
  · unfold cfg_recalc
    apply List.map_congr_left
    intro p hp
    have heq : max 0 (p.2.xp + 0) = p.2.xp := by
      have := hxp p hp
      omega
    by_cases hm : is_member p.1
    · rw [if_pos hm]
      unfold recalc_member_row
      simp only [add_xp_and_check_level_up]
      rw [heq]
    · rw [if_neg hm]
  · intro e he
    unfold cfg_recalc at he
    rw [List.mem_flatMap] at he
    obtain ⟨p, hpfil, hemem⟩ := he
    rw [List.mem_filter] at hpfil
    obtain ⟨hptab, hpm⟩ := hpfil
    rw [List.mem_map] at hemem
    obtain ⟨g, hg, rfl⟩ := hemem
    refine ⟨hpm, p, hptab, rfl, ?_⟩
    unfold recalc_member_row at hg
    simp only [add_xp_and_check_level_up] at hg
    have heq : max 0 (p.2.xp + 0) = p.2.xp := by
      have := hxp p hptab
      omega
    rw [heq] at hg
    by_cases hlt : p.2.level <
        (level_from_total_xp s.curve_type s.base_xp s.curve_a s.curve_b
          p.2.xp : ℤ)
    · exact hlt
    · rw [if_neg hlt] at hg
      cases hg

/-- A concrete instantiation of `recalc_consistency`: a subject stored
at level 5 with 1050 XP is written down to the recomputed level 3 with
XP and timestamp untouched. -/
theorem recalc_consistency_witness :
    (cfg_recalc DEFAULT_SETTINGS [] (fun _ => no_env) (fun _ => true)
        [(7, (⟨1050, 5, 42⟩ : UserRow))]).1 =
      [(7, (⟨1050, 3, 42⟩ : UserRow))] :=
  ((recalc_consistency DEFAULT_SETTINGS [] (fun _ => no_env)
      (fun _ => true) [(7, (⟨1050, 5, 42⟩ : UserRow))]
      (by decide)).1).trans (by decide)

end Levelling
